import Mathlib

set_option maxHeartbeats 1000000

/-!
Shallow embedding of the chip8-rust interpreter: `src/cpu.rs`,
`src/display.rs` and the duplicated interpreter inside `src/main.rs`.

Conventions of the embedding:
- Machine integers (`u8`, `u16`) are modelled as `Nat` with an explicit
  `% 256` / `% 65536` at the points where the Rust code wraps
  (`overflowing_add`, `as u8` truncation, `pc += 2` on a `u16`, ...).
- Fixed-size arrays (`[u8; 4096]`, `[u8; 16]`, `[u16; 16]`, the pixel grid)
  are modelled as total functions; every place where the Rust code indexes
  an array with an index that is not obviously in range carries an explicit
  bounds check, and a failed check produces an abort outcome, mirroring the
  bounds-check panic of the Rust indexing operation.
- Rust panics are modelled by the `Abort` type: `unexpectedOpcode` is the
  explicit panic in the decode fallthrough of `cpu.rs` (it carries the raw
  opcode value, as the panic message does), `indexOutOfBounds` is an array
  bounds-check panic, `subtractionOverflow` is the overflow-checked (debug
  mode) panic of `stack_pointer -= 1` at `stack_pointer == 0`, and `hang`
  is the `println` + infinite `loop` fallthrough of `main.rs`.  An abort
  carries the interpreter state at the point the abort happens, so that
  partial mutation before an abort is observable.
-/

/-- Pointwise update of a function modelling a mutable array of `Nat`. -/
def upd (f : Nat → Nat) (i v : Nat) : Nat → Nat :=
  fun j => if j = i then v else f j

/-- The 64 × 32 monochrome framebuffer of `src/display.rs`. -/
structure Display where
  pixels : Nat → Nat → Bool

def Display.WIDTH : Nat := 64

def Display.HEIGHT : Nat := 32

def Display.new : Display := ⟨fun _ _ => false⟩

/-- Model of `Display::clear`: sets every pixel to off. -/
def Display.clear (_d : Display) : Display := ⟨fun _ _ => false⟩

/-- Write one pixel cell of the framebuffer. -/
def setPix (d : Display) (r c : Nat) (b : Bool) : Display :=
  ⟨fun r0 c0 => if r0 = r ∧ c0 = c then b else d.pixels r0 c0⟩

/-- The interpreter state (`struct Cpu`, identical in `cpu.rs` and `main.rs`). -/
structure Cpu where
  memory : Nat → Nat
  display : Display
  pc : Nat
  index : Nat
  registers : Nat → Nat
  stack : Nat → Nat
  stack_pointer : Nat
  delay_timer : Nat

/-- The ways the Rust program aborts instead of returning normally. -/
inductive Abort where
  | unexpectedOpcode (opcode : Nat)
  | indexOutOfBounds
  | subtractionOverflow
  | hang (opcode : Nat)
deriving DecidableEq

/-- Outcome of executing Rust code that can abort: either the successor
state, or an abort reason together with the state at the abort point. -/
abbrev ExecResult := Except (Abort × Cpu) Cpu

def isOkE (r : ExecResult) : Bool :=
  match r with
  | .ok _ => true
  | .error _ => false

/-- A bounds-checked write to the 4096-byte memory (`self.memory[addr] = v`). -/
def memWrite (s : Cpu) (addr v : Nat) : ExecResult :=
  if addr < 4096 then .ok { s with memory := upd s.memory addr v }
  else .error (.indexOutOfBounds, s)

/-- The font atlas copied into memory at startup. -/
def FONT : List Nat :=
  [0xF0, 0x90, 0x90, 0x90, 0xF0,
   0x20, 0x60, 0x20, 0x20, 0x70,
   0xF0, 0x10, 0xF0, 0x80, 0xF0,
   0xF0, 0x10, 0xF0, 0x10, 0xF0,
   0x90, 0x90, 0xF0, 0x10, 0x10,
   0xF0, 0x80, 0xF0, 0x10, 0xF0,
   0xF0, 0x80, 0xF0, 0x90, 0xF0,
   0xF0, 0x10, 0x20, 0x40, 0x40,
   0xF0, 0x90, 0xF0, 0x90, 0xF0,
   0xF0, 0x90, 0xF0, 0x10, 0xF0,
   0xF0, 0x90, 0xF0, 0x90, 0x90,
   0xE0, 0x90, 0xE0, 0x90, 0xE0,
   0xF0, 0x80, 0x80, 0x80, 0xF0,
   0xE0, 0x90, 0x90, 0x90, 0xE0,
   0xF0, 0x80, 0xF0, 0x80, 0xF0,
   0xF0, 0x80, 0xF0, 0x80, 0x80]

def PC_START : Nat := 0x200

namespace CpuRs

/-- Model of `Cpu::new` of `cpu.rs`: font in the first 80 bytes, zeroed otherwise. -/
def new : Cpu :=
  { memory := fun a => if a < 80 then FONT.getD a 0 else 0
    display := Display.new
    pc := PC_START
    index := 0
    registers := fun _ => 0
    stack := fun _ => 0
    stack_pointer := 0
    delay_timer := 0 }

/-- The copy loop of `Cpu::load`: write byte `b` at `0x200 + i` while the
address is below 4096, stop (Rust `break`) at the first address past it. -/
def loadFrom (mem : Nat → Nat) : Nat → List Nat → (Nat → Nat)
  | _, [] => mem
  | i, b :: rest =>
    if 0x200 + i < 4096 then loadFrom (upd mem (0x200 + i) b) (i + 1) rest
    else mem

/-- Model of `Cpu::load` of `cpu.rs`. -/
def load (s : Cpu) (rom : List Nat) : Cpu :=
  { s with memory := loadFrom s.memory 0 rom }

/-- Model of `Cpu::fetch_opcode`: big-endian 16-bit read at `pc`, with the
bounds-check of the two array accesses. -/
def fetch_opcode (s : Cpu) : Except (Abort × Cpu) Nat :=
  if s.pc < 4096 then
    if s.pc + 1 < 4096 then .ok ((s.memory s.pc <<< 8) ||| s.memory (s.pc + 1))
    else .error (.indexOutOfBounds, s)
  else .error (.indexOutOfBounds, s)

def op_00e0 (s : Cpu) : Cpu :=
  { s with display := s.display.clear, pc := (s.pc + 2) % 65536 }

def op_00ee (s : Cpu) : ExecResult :=
  if s.stack_pointer = 0 then .error (.subtractionOverflow, s)
  else if s.stack_pointer - 1 < 16 then
    .ok { s with stack_pointer := s.stack_pointer - 1,
                 pc := s.stack (s.stack_pointer - 1) }
  else .error (.indexOutOfBounds, { s with stack_pointer := s.stack_pointer - 1 })

def op_1nnn (s : Cpu) (nnn : Nat) : Cpu :=
  { s with pc := nnn }

def op_2nnn (s : Cpu) (nnn : Nat) : ExecResult :=
  if s.stack_pointer < 16 then
    .ok { s with stack := upd s.stack s.stack_pointer ((s.pc + 2) % 65536)
                 stack_pointer := s.stack_pointer + 1
                 pc := nnn }
  else .error (.indexOutOfBounds, s)

def op_3xnn (s : Cpu) (x nn : Nat) : Cpu :=
  let s := if s.registers x = nn then { s with pc := (s.pc + 2) % 65536 } else s
  { s with pc := (s.pc + 2) % 65536 }

def op_4xnn (s : Cpu) (x nn : Nat) : Cpu :=
  let s := if s.registers x ≠ nn then { s with pc := (s.pc + 2) % 65536 } else s
  { s with pc := (s.pc + 2) % 65536 }

def op_5xy0 (s : Cpu) (x y : Nat) : Cpu :=
  let s := if s.registers x = s.registers y then { s with pc := (s.pc + 2) % 65536 } else s
  { s with pc := (s.pc + 2) % 65536 }

def op_6xnn (s : Cpu) (x nn : Nat) : Cpu :=
  { s with registers := upd s.registers x nn, pc := (s.pc + 2) % 65536 }

def op_7xnn (s : Cpu) (x nn : Nat) : Cpu :=
  { s with registers := upd s.registers x ((s.registers x + nn) % 256)
           pc := (s.pc + 2) % 65536 }

def op_8xy0 (s : Cpu) (x y : Nat) : Cpu :=
  { s with registers := upd s.registers x (s.registers y), pc := (s.pc + 2) % 65536 }

def op_8xy1 (s : Cpu) (x y : Nat) : Cpu :=
  { s with registers := upd s.registers x (s.registers x ||| s.registers y)
           pc := (s.pc + 2) % 65536 }

def op_8xy2 (s : Cpu) (x y : Nat) : Cpu :=
  { s with registers := upd s.registers x (s.registers x &&& s.registers y)
           pc := (s.pc + 2) % 65536 }

def op_8xy3 (s : Cpu) (x y : Nat) : Cpu :=
  { s with registers := upd s.registers x (s.registers x ^^^ s.registers y)
           pc := (s.pc + 2) % 65536 }

def op_8xy4 (s : Cpu) (x y : Nat) : Cpu :=
  let vx := s.registers x
  let vy := s.registers y
  let value := (vx + vy) % 256
  let overflowed := if 255 < vx + vy then 1 else 0
  let s := { s with registers := upd s.registers x value }
  let s := { s with registers := upd s.registers 0xF overflowed }
  { s with pc := (s.pc + 2) % 65536 }

def op_8xy5 (s : Cpu) (x y : Nat) : Cpu :=
  let vx := s.registers x
  let vy := s.registers y
  let value := (vx + vy) % 256
  let overflowed := if 255 < vx + vy then 1 else 0
  let s := { s with registers := upd s.registers 0xF overflowed }
  let s := { s with registers := upd s.registers x value }
  { s with pc := (s.pc + 2) % 65536 }

def op_8xy6 (s : Cpu) (x _y : Nat) : Cpu :=
  let value := s.registers x
  let shifted_bit := value &&& 0xF
  let value := value >>> 1
  let s := { s with registers := upd s.registers x value }
  let s := { s with registers := upd s.registers 0xF shifted_bit }
  { s with pc := (s.pc + 2) % 65536 }

def op_8xy7 (s : Cpu) (x y : Nat) : Cpu :=
  let vx := s.registers x
  let vy := s.registers y
  let value := (vy + vx) % 256
  let overflowed := if 255 < vy + vx then 1 else 0
  let s := { s with registers := upd s.registers 0xF overflowed }
  let s := { s with registers := upd s.registers x value }
  { s with pc := (s.pc + 2) % 65536 }

def op_8xye (s : Cpu) (x _y : Nat) : Cpu :=
  let value := s.registers x
  let shifted_bit := value >>> 7
  let value := (value <<< 1) % 256
  let s := { s with registers := upd s.registers x value }
  let s := { s with registers := upd s.registers 0xF shifted_bit }
  { s with pc := (s.pc + 2) % 65536 }

def op_9xy0 (s : Cpu) (x y : Nat) : Cpu :=
  let s := if s.registers x ≠ s.registers y then { s with pc := (s.pc + 2) % 65536 } else s
  { s with pc := (s.pc + 2) % 65536 }

def op_annn (s : Cpu) (nnn : Nat) : Cpu :=
  { s with index := nnn, pc := (s.pc + 2) % 65536 }

def op_bnnn (s : Cpu) (nnn : Nat) : Cpu :=
  { s with pc := (s.registers 0 + nnn) % 65536 }

/-- Inner loop of `op_dxyn` over the 8 bits of one sprite row (`byte`),
given the row coordinate `rowY` that the Rust code computes once per row.
`drawBits x rowY byte s k` runs the loop body for `bit = 0, 1, ..., k - 1`,
in that order.  Note the loop body re-reads `self.registers[x]` and writes
`self.registers[0xF]` on every iteration, exactly like the source. -/
def drawBits (x rowY byte : Nat) : Cpu → Nat → ExecResult
  | s, 0 => .ok s
  | s, bit + 1 =>
    match drawBits x rowY byte s bit with
    | .error e => .error e
    | .ok s1 =>
      let colX := (s1.registers x + bit) % Display.WIDTH
      if s1.index + byte < 4096 then
        let color := (s1.memory (s1.index + byte) >>> (7 - bit)) &&& 1
        let turned_off := color &&& (s1.display.pixels rowY colX).toNat
        let s2 := { s1 with registers := upd s1.registers 0xF (s1.registers 0xF ||| turned_off) }
        let s3 := { s2 with display := setPix s2.display rowY colX (Bool.xor (s2.display.pixels rowY colX) (color != 0)) }
        .ok s3
      else .error (.indexOutOfBounds, s1)

/-- Outer loop of `op_dxyn` over the sprite rows: `drawRows x y s m` runs
the row body for `byte = 0, 1, ..., m - 1`, in that order, computing the
row coordinate from `self.registers[y]` at the start of each row. -/
def drawRows (x y : Nat) : Cpu → Nat → ExecResult
  | s, 0 => .ok s
  | s, byte + 1 =>
    match drawRows x y s byte with
    | .error e => .error e
    | .ok s1 => drawBits x ((s1.registers y + byte) % Display.HEIGHT) byte s1 8

def op_dxyn (s : Cpu) (x y n : Nat) : ExecResult :=
  match drawRows x y { s with registers := upd s.registers 0xF 0 } n with
  | .error e => .error e
  | .ok s1 => .ok { s1 with pc := (s1.pc + 2) % 65536 }

def op_fx15 (s : Cpu) (x : Nat) : Cpu :=
  { s with delay_timer := s.registers x, pc := (s.pc + 2) % 65536 }

/-- Model of `op_fx33` exactly as written in the source: note that the second and
third stores both target `idx + 1`, and `idx + 2` is never written. -/
def op_fx33 (s : Cpu) (x : Nat) : ExecResult :=
  match memWrite s s.index (s.registers x / 100) with
  | .error e => .error e
  | .ok s1 =>
    match memWrite s1 (s.index + 1) ((s1.registers x % 100) / 10) with
    | .error e => .error e
    | .ok s2 =>
      match memWrite s2 (s.index + 1) (s2.registers x % 10) with
      | .error e => .error e
      | .ok s3 => .ok { s3 with pc := (s3.pc + 2) % 65536 }

/-- The loop of `op_fx55`: `storeRegs s k` stores registers
`0, 1, ..., k - 1` to memory at `index + offset`, in increasing order. -/
def storeRegs : Cpu → Nat → ExecResult
  | s, 0 => .ok s
  | s, k + 1 =>
    match storeRegs s k with
    | .error e => .error e
    | .ok s1 => memWrite s1 ((s1.index + k) % 65536) (s1.registers k)

def op_fx55 (s : Cpu) (x : Nat) : ExecResult :=
  match storeRegs s (x + 1) with
  | .error e => .error e
  | .ok s1 => .ok { s1 with pc := (s1.pc + 2) % 65536 }

/-- The loop of `op_fx65`: `loadRegs s k` loads registers
`0, 1, ..., k - 1` from memory at `index + offset`, in increasing order. -/
def loadRegs : Cpu → Nat → ExecResult
  | s, 0 => .ok s
  | s, k + 1 =>
    match loadRegs s k with
    | .error e => .error e
    | .ok s1 =>
      if (s1.index + k) % 65536 < 4096 then
        .ok { s1 with registers := upd s1.registers k (s1.memory ((s1.index + k) % 65536)) }
      else .error (.indexOutOfBounds, s1)

def op_fx65 (s : Cpu) (x : Nat) : ExecResult :=
  match loadRegs s (x + 1) with
  | .error e => .error e
  | .ok s1 => .ok { s1 with pc := (s1.pc + 2) % 65536 }

/-- The decode table of `cpu.rs::execute_opcode`, in source order. -/
def execute_opcode (s : Cpu) (opcode : Nat) : ExecResult :=
  let n0 := (opcode &&& 0xF000) >>> 12
  let n1 := (opcode &&& 0x0F00) >>> 8
  let n2 := (opcode &&& 0x00F0) >>> 4
  let n3 := opcode &&& 0x000F
  let nnn := opcode &&& 0x0FFF
  let nn := opcode &&& 0x00FF
  let x := n1
  let y := n2
  let n := n3
  if n0 = 0x0 ∧ n1 = 0x0 ∧ n2 = 0xE ∧ n3 = 0x0 then .ok (op_00e0 s)
  else if n0 = 0x0 ∧ n1 = 0x0 ∧ n2 = 0xE ∧ n3 = 0xE then op_00ee s
  else if n0 = 0x1 then .ok (op_1nnn s nnn)
  else if n0 = 0x2 then op_2nnn s nnn
  else if n0 = 0x3 then .ok (op_3xnn s x nn)
  else if n0 = 0x4 then .ok (op_4xnn s x nn)
  else if n0 = 0x5 then .ok (op_5xy0 s x y)
  else if n0 = 0x6 then .ok (op_6xnn s x nn)
  else if n0 = 0x7 then .ok (op_7xnn s x nn)
  else if n0 = 0x8 ∧ n3 = 0x0 then .ok (op_8xy0 s x y)
  else if n0 = 0x8 ∧ n3 = 0x1 then .ok (op_8xy1 s x y)
  else if n0 = 0x8 ∧ n3 = 0x2 then .ok (op_8xy2 s x y)
  else if n0 = 0x8 ∧ n3 = 0x3 then .ok (op_8xy3 s x y)
  else if n0 = 0x8 ∧ n3 = 0x4 then .ok (op_8xy4 s x y)
  else if n0 = 0x8 ∧ n3 = 0x5 then .ok (op_8xy5 s x y)
  else if n0 = 0x8 ∧ n3 = 0x6 then .ok (op_8xy6 s x y)
  else if n0 = 0x8 ∧ n3 = 0x7 then .ok (op_8xy7 s x y)
  else if n0 = 0x8 ∧ n3 = 0xE then .ok (op_8xye s x y)
  else if n0 = 0x9 ∧ n3 = 0x0 then .ok (op_9xy0 s x y)
  else if n0 = 0xA then .ok (op_annn s nnn)
  else if n0 = 0xB then .ok (op_bnnn s nnn)
  else if n0 = 0xD then op_dxyn s x y n
  else if n0 = 0xF ∧ n2 = 0x1 ∧ n3 = 0x5 then .ok (op_fx15 s x)
  else if n0 = 0xF ∧ n2 = 0x3 ∧ n3 = 0x3 then op_fx33 s x
  else if n0 = 0xF ∧ n2 = 0x5 ∧ n3 = 0x5 then op_fx55 s x
  else if n0 = 0xF ∧ n2 = 0x6 ∧ n3 = 0x5 then op_fx65 s x
  else .error (.unexpectedOpcode opcode, s)

/-- Whether an instruction word matches some arm of the decode table of
`cpu.rs` (one disjunct per arm of `execute_opcode`, in the same order). -/
def accepts (opcode : Nat) : Bool :=
  let n0 := (opcode &&& 0xF000) >>> 12
  let n1 := (opcode &&& 0x0F00) >>> 8
  let n2 := (opcode &&& 0x00F0) >>> 4
  let n3 := opcode &&& 0x000F
  decide (n0 = 0x0 ∧ n1 = 0x0 ∧ n2 = 0xE ∧ n3 = 0x0) ||
  decide (n0 = 0x0 ∧ n1 = 0x0 ∧ n2 = 0xE ∧ n3 = 0xE) ||
  decide (n0 = 0x1) ||
  decide (n0 = 0x2) ||
  decide (n0 = 0x3) ||
  decide (n0 = 0x4) ||
  decide (n0 = 0x5) ||
  decide (n0 = 0x6) ||
  decide (n0 = 0x7) ||
  decide (n0 = 0x8 ∧ n3 = 0x0) ||
  decide (n0 = 0x8 ∧ n3 = 0x1) ||
  decide (n0 = 0x8 ∧ n3 = 0x2) ||
  decide (n0 = 0x8 ∧ n3 = 0x3) ||
  decide (n0 = 0x8 ∧ n3 = 0x4) ||
  decide (n0 = 0x8 ∧ n3 = 0x5) ||
  decide (n0 = 0x8 ∧ n3 = 0x6) ||
  decide (n0 = 0x8 ∧ n3 = 0x7) ||
  decide (n0 = 0x8 ∧ n3 = 0xE) ||
  decide (n0 = 0x9 ∧ n3 = 0x0) ||
  decide (n0 = 0xA) ||
  decide (n0 = 0xB) ||
  decide (n0 = 0xD) ||
  decide (n0 = 0xF ∧ n2 = 0x1 ∧ n3 = 0x5) ||
  decide (n0 = 0xF ∧ n2 = 0x3 ∧ n3 = 0x3) ||
  decide (n0 = 0xF ∧ n2 = 0x5 ∧ n3 = 0x5) ||
  decide (n0 = 0xF ∧ n2 = 0x6 ∧ n3 = 0x5)

/-- Model of `Cpu::tick`: decrement the delay timer if nonzero, then fetch and
execute one instruction. -/
def tick (s : Cpu) : ExecResult :=
  let s1 := if 0 < s.delay_timer then { s with delay_timer := s.delay_timer - 1 } else s
  match fetch_opcode s1 with
  | .ok opcode => execute_opcode s1 opcode
  | .error e => .error e

end CpuRs

namespace MainRs

/-- The handlers of the `Cpu` duplicated inside `src/main.rs`.  Their bodies
are embedded independently from `main.rs`; each one happens to coincide with
its `cpu.rs` counterpart, which the equality lemmas below make precise. -/
def op_00e0 (s : Cpu) : Cpu :=
  { s with display := s.display.clear, pc := (s.pc + 2) % 65536 }

def op_00ee (s : Cpu) : ExecResult :=
  if s.stack_pointer = 0 then .error (.subtractionOverflow, s)
  else if s.stack_pointer - 1 < 16 then
    .ok { s with stack_pointer := s.stack_pointer - 1,
                 pc := s.stack (s.stack_pointer - 1) }
  else .error (.indexOutOfBounds, { s with stack_pointer := s.stack_pointer - 1 })

def op_1nnn (s : Cpu) (nnn : Nat) : Cpu :=
  { s with pc := nnn }

def op_2nnn (s : Cpu) (nnn : Nat) : ExecResult :=
  if s.stack_pointer < 16 then
    .ok { s with stack := upd s.stack s.stack_pointer ((s.pc + 2) % 65536)
                 stack_pointer := s.stack_pointer + 1
                 pc := nnn }
  else .error (.indexOutOfBounds, s)

def op_3xnn (s : Cpu) (x nn : Nat) : Cpu :=
  let s := if s.registers x = nn then { s with pc := (s.pc + 2) % 65536 } else s
  { s with pc := (s.pc + 2) % 65536 }

def op_4xnn (s : Cpu) (x nn : Nat) : Cpu :=
  let s := if s.registers x ≠ nn then { s with pc := (s.pc + 2) % 65536 } else s
  { s with pc := (s.pc + 2) % 65536 }

def op_5xy0 (s : Cpu) (x y : Nat) : Cpu :=
  let s := if s.registers x = s.registers y then { s with pc := (s.pc + 2) % 65536 } else s
  { s with pc := (s.pc + 2) % 65536 }

def op_6xnn (s : Cpu) (x nn : Nat) : Cpu :=
  { s with registers := upd s.registers x nn, pc := (s.pc + 2) % 65536 }

def op_7xnn (s : Cpu) (x nn : Nat) : Cpu :=
  { s with registers := upd s.registers x ((s.registers x + nn) % 256)
           pc := (s.pc + 2) % 65536 }

def op_8xy0 (s : Cpu) (x y : Nat) : Cpu :=
  { s with registers := upd s.registers x (s.registers y), pc := (s.pc + 2) % 65536 }

def op_8xy1 (s : Cpu) (x y : Nat) : Cpu :=
  { s with registers := upd s.registers x (s.registers x ||| s.registers y)
           pc := (s.pc + 2) % 65536 }

def op_8xy2 (s : Cpu) (x y : Nat) : Cpu :=
  { s with registers := upd s.registers x (s.registers x &&& s.registers y)
           pc := (s.pc + 2) % 65536 }

def op_8xy3 (s : Cpu) (x y : Nat) : Cpu :=
  { s with registers := upd s.registers x (s.registers x ^^^ s.registers y)
           pc := (s.pc + 2) % 65536 }

def op_8xy4 (s : Cpu) (x y : Nat) : Cpu :=
  let vx := s.registers x
  let vy := s.registers y
  let value := (vx + vy) % 256
  let overflowed := if 255 < vx + vy then 1 else 0
  let s := { s with registers := upd s.registers x value }
  let s := { s with registers := upd s.registers 0xF overflowed }
  { s with pc := (s.pc + 2) % 65536 }

def op_8xy5 (s : Cpu) (x y : Nat) : Cpu :=
  let vx := s.registers x
  let vy := s.registers y
  let value := (vx + vy) % 256
  let overflowed := if 255 < vx + vy then 1 else 0
  let s := { s with registers := upd s.registers 0xF overflowed }
  let s := { s with registers := upd s.registers x value }
  { s with pc := (s.pc + 2) % 65536 }

def op_8xy6 (s : Cpu) (x _y : Nat) : Cpu :=
  let value := s.registers x
  let shifted_bit := value &&& 0xF
  let value := value >>> 1
  let s := { s with registers := upd s.registers x value }
  let s := { s with registers := upd s.registers 0xF shifted_bit }
  { s with pc := (s.pc + 2) % 65536 }

def op_8xye (s : Cpu) (x _y : Nat) : Cpu :=
  let value := s.registers x
  let shifted_bit := value >>> 7
  let value := (value <<< 1) % 256
  let s := { s with registers := upd s.registers x value }
  let s := { s with registers := upd s.registers 0xF shifted_bit }
  { s with pc := (s.pc + 2) % 65536 }

def op_8xy7 (s : Cpu) (x y : Nat) : Cpu :=
  let vx := s.registers x
  let vy := s.registers y
  let value := (vy + vx) % 256
  let overflowed := if 255 < vy + vx then 1 else 0
  let s := { s with registers := upd s.registers 0xF overflowed }
  let s := { s with registers := upd s.registers x value }
  { s with pc := (s.pc + 2) % 65536 }

def op_9xy0 (s : Cpu) (x y : Nat) : Cpu :=
  let s := if s.registers x ≠ s.registers y then { s with pc := (s.pc + 2) % 65536 } else s
  { s with pc := (s.pc + 2) % 65536 }

def op_annn (s : Cpu) (nnn : Nat) : Cpu :=
  { s with index := nnn, pc := (s.pc + 2) % 65536 }

def drawBits (x rowY byte : Nat) : Cpu → Nat → ExecResult
  | s, 0 => .ok s
  | s, bit + 1 =>
    match drawBits x rowY byte s bit with
    | .error e => .error e
    | .ok s1 =>
      let colX := (s1.registers x + bit) % Display.WIDTH
      if s1.index + byte < 4096 then
        let color := (s1.memory (s1.index + byte) >>> (7 - bit)) &&& 1
        let turned_off := color &&& (s1.display.pixels rowY colX).toNat
        let s2 := { s1 with registers := upd s1.registers 0xF (s1.registers 0xF ||| turned_off) }
        let s3 := { s2 with display := setPix s2.display rowY colX (Bool.xor (s2.display.pixels rowY colX) (color != 0)) }
        .ok s3
      else .error (.indexOutOfBounds, s1)

def drawRows (x y : Nat) : Cpu → Nat → ExecResult
  | s, 0 => .ok s
  | s, byte + 1 =>
    match drawRows x y s byte with
    | .error e => .error e
    | .ok s1 => drawBits x ((s1.registers y + byte) % Display.HEIGHT) byte s1 8

def op_dxyn (s : Cpu) (x y n : Nat) : ExecResult :=
  match drawRows x y { s with registers := upd s.registers 0xF 0 } n with
  | .error e => .error e
  | .ok s1 => .ok { s1 with pc := (s1.pc + 2) % 65536 }

def op_fx15 (s : Cpu) (x : Nat) : Cpu :=
  { s with delay_timer := s.registers x, pc := (s.pc + 2) % 65536 }

def op_fx33 (s : Cpu) (x : Nat) : ExecResult :=
  match memWrite s s.index (s.registers x / 100) with
  | .error e => .error e
  | .ok s1 =>
    match memWrite s1 (s.index + 1) ((s1.registers x % 100) / 10) with
    | .error e => .error e
    | .ok s2 =>
      match memWrite s2 (s.index + 1) (s2.registers x % 10) with
      | .error e => .error e
      | .ok s3 => .ok { s3 with pc := (s3.pc + 2) % 65536 }

def storeRegs : Cpu → Nat → ExecResult
  | s, 0 => .ok s
  | s, k + 1 =>
    match storeRegs s k with
    | .error e => .error e
    | .ok s1 => memWrite s1 ((s1.index + k) % 65536) (s1.registers k)

def op_fx55 (s : Cpu) (x : Nat) : ExecResult :=
  match storeRegs s (x + 1) with
  | .error e => .error e
  | .ok s1 => .ok { s1 with pc := (s1.pc + 2) % 65536 }

def loadRegs : Cpu → Nat → ExecResult
  | s, 0 => .ok s
  | s, k + 1 =>
    match loadRegs s k with
    | .error e => .error e
    | .ok s1 =>
      if (s1.index + k) % 65536 < 4096 then
        .ok { s1 with registers := upd s1.registers k (s1.memory ((s1.index + k) % 65536)) }
      else .error (.indexOutOfBounds, s1)

def op_fx65 (s : Cpu) (x : Nat) : ExecResult :=
  match loadRegs s (x + 1) with
  | .error e => .error e
  | .ok s1 => .ok { s1 with pc := (s1.pc + 2) % 65536 }

/-- The decode table of `main.rs::execute_opcode`, in source order.  It has
no arm for `Bnnn` (there is no `op_bnnn` in `main.rs` at all), and its
fallthrough prints and then spins in an infinite loop instead of the
explicit panic of `cpu.rs`. -/
def execute_opcode (s : Cpu) (opcode : Nat) : ExecResult :=
  let n0 := (opcode &&& 0xF000) >>> 12
  let n1 := (opcode &&& 0x0F00) >>> 8
  let n2 := (opcode &&& 0x00F0) >>> 4
  let n3 := opcode &&& 0x000F
  let nnn := opcode &&& 0x0FFF
  let nn := opcode &&& 0x00FF
  let x := n1
  let y := n2
  let n := n3
  if n0 = 0x0 ∧ n1 = 0x0 ∧ n2 = 0xE ∧ n3 = 0x0 then .ok (op_00e0 s)
  else if n0 = 0x0 ∧ n1 = 0x0 ∧ n2 = 0xE ∧ n3 = 0xE then op_00ee s
  else if n0 = 0x1 then .ok (op_1nnn s nnn)
  else if n0 = 0x2 then op_2nnn s nnn
  else if n0 = 0x3 then .ok (op_3xnn s x nn)
  else if n0 = 0x4 then .ok (op_4xnn s x nn)
  else if n0 = 0x5 then .ok (op_5xy0 s x y)
  else if n0 = 0x6 then .ok (op_6xnn s x nn)
  else if n0 = 0x7 then .ok (op_7xnn s x nn)
  else if n0 = 0x8 ∧ n3 = 0x0 then .ok (op_8xy0 s x y)
  else if n0 = 0x8 ∧ n3 = 0x1 then .ok (op_8xy1 s x y)
  else if n0 = 0x8 ∧ n3 = 0x2 then .ok (op_8xy2 s x y)
  else if n0 = 0x8 ∧ n3 = 0x3 then .ok (op_8xy3 s x y)
  else if n0 = 0x8 ∧ n3 = 0x4 then .ok (op_8xy4 s x y)
  else if n0 = 0x8 ∧ n3 = 0x5 then .ok (op_8xy5 s x y)
  else if n0 = 0x8 ∧ n3 = 0x6 then .ok (op_8xy6 s x y)
  else if n0 = 0x8 ∧ n3 = 0x7 then .ok (op_8xy7 s x y)
  else if n0 = 0x8 ∧ n3 = 0xE then .ok (op_8xye s x y)
  else if n0 = 0x9 ∧ n3 = 0x0 then .ok (op_9xy0 s x y)
  else if n0 = 0xA then .ok (op_annn s nnn)
  else if n0 = 0xD then op_dxyn s x y n
  else if n0 = 0xF ∧ n2 = 0x1 ∧ n3 = 0x5 then .ok (op_fx15 s x)
  else if n0 = 0xF ∧ n2 = 0x3 ∧ n3 = 0x3 then op_fx33 s x
  else if n0 = 0xF ∧ n2 = 0x5 ∧ n3 = 0x5 then op_fx55 s x
  else if n0 = 0xF ∧ n2 = 0x6 ∧ n3 = 0x5 then op_fx65 s x
  else .error (.hang opcode, s)

/-- Whether an instruction word matches some arm of the decode table of
`main.rs` (one disjunct per arm of `MainRs.execute_opcode`, in order;
note there is no `Bnnn` disjunct). -/
def accepts (opcode : Nat) : Bool :=
  let n0 := (opcode &&& 0xF000) >>> 12
  let n1 := (opcode &&& 0x0F00) >>> 8
  let n2 := (opcode &&& 0x00F0) >>> 4
  let n3 := opcode &&& 0x000F
  decide (n0 = 0x0 ∧ n1 = 0x0 ∧ n2 = 0xE ∧ n3 = 0x0) ||
  decide (n0 = 0x0 ∧ n1 = 0x0 ∧ n2 = 0xE ∧ n3 = 0xE) ||
  decide (n0 = 0x1) ||
  decide (n0 = 0x2) ||
  decide (n0 = 0x3) ||
  decide (n0 = 0x4) ||
  decide (n0 = 0x5) ||
  decide (n0 = 0x6) ||
  decide (n0 = 0x7) ||
  decide (n0 = 0x8 ∧ n3 = 0x0) ||
  decide (n0 = 0x8 ∧ n3 = 0x1) ||
  decide (n0 = 0x8 ∧ n3 = 0x2) ||
  decide (n0 = 0x8 ∧ n3 = 0x3) ||
  decide (n0 = 0x8 ∧ n3 = 0x4) ||
  decide (n0 = 0x8 ∧ n3 = 0x5) ||
  decide (n0 = 0x8 ∧ n3 = 0x6) ||
  decide (n0 = 0x8 ∧ n3 = 0x7) ||
  decide (n0 = 0x8 ∧ n3 = 0xE) ||
  decide (n0 = 0x9 ∧ n3 = 0x0) ||
  decide (n0 = 0xA) ||
  decide (n0 = 0xD) ||
  decide (n0 = 0xF ∧ n2 = 0x1 ∧ n3 = 0x5) ||
  decide (n0 = 0xF ∧ n2 = 0x3 ∧ n3 = 0x3) ||
  decide (n0 = 0xF ∧ n2 = 0x5 ∧ n3 = 0x5) ||
  decide (n0 = 0xF ∧ n2 = 0x6 ∧ n3 = 0x5)

end MainRs

/-- Extract the abort reason of an outcome, if any. -/
def abortReason : ExecResult → Option Abort
  | .error (a, _) => some a
  | .ok _ => none

/-- Extract the delay timer of the state at the abort point, if any. -/
def abortDelay : ExecResult → Option Nat
  | .error (_, t) => some t.delay_timer
  | .ok _ => none

/-- A completely blank interpreter state used for concrete evaluations. -/
def zeroCpu : Cpu :=
  { memory := fun _ => 0
    display := Display.new
    pc := 0x200
    index := 0
    registers := fun _ => 0
    stack := fun _ => 0
    stack_pointer := 0
    delay_timer := 0 }

/-- State for the Fx33 evaluation: `V0 = 123`, `index_register = 0x300`. -/
def c1cpu : Cpu :=
  { zeroCpu with registers := upd (fun _ => 0) 0 123, index := 0x300 }

/-- State for the VF-flag counterexample: `V0 = 200`, `VF = 200`. -/
def c2cpu : Cpu :=
  { zeroCpu with registers := upd (upd (fun _ => 0) 0 200) 15 200 }

/-- State for the sprite counterexample: `VF = 5`, one sprite row `0x80`
at `index_register = 0x300`, empty framebuffer. -/
def c5cpu : Cpu :=
  { zeroCpu with registers := upd (fun _ => 0) 15 5
                 index := 0x300
                 memory := upd (fun _ => 0) 0x300 0x80 }

/-- State for the Vx = 0x1F shift example: `V1 = 0x1F`. -/
def c7cpu : Cpu :=
  { zeroCpu with registers := upd (fun _ => 0) 1 0x1F }

/-- State for the stack-underflow counterexample: `00EE` at `pc = 0x200`,
`stack_pointer = 0`, `delay_timer = 5`. -/
def c4cpu : Cpu :=
  { zeroCpu with memory := upd (upd (fun _ => 0) 0x200 0x00) 0x201 0xEE
                 delay_timer := 5 }

/-- Computable decidability of a doubly-bounded existential, used by the
collision-flag statements. -/
instance decidableExistsLtAndNested (p : Nat → Nat → Prop) [inst : ∀ i j, Decidable (p i j)]
    (m n : Nat) : Decidable (∃ i, i < m ∧ ∃ j, j < n ∧ p i j) :=
  decidable_of_iff (∃ i ∈ Finset.range m, ∃ j ∈ Finset.range n, p i j)
    (by simp [Finset.mem_range])

/-- Claim C1: the code disagrees with the claim.  Evaluating `op_fx33` at
`V0 = 123`, `index_register = 0x300` writes the hundreds digit 1 to
`0x300` but the ones digit 3 to `0x301` (the tens digit 2 written there on
the previous source line is immediately overwritten), and `0x302` is never
written (it keeps its prior value 0); the claim requires 1, 2, 3.
PC still advances by 2. -/
theorem C1_fx33_digits :
    (CpuRs.op_fx33 c1cpu 0).map
      (fun t => (t.memory 0x300, t.memory 0x301, t.memory 0x302, t.pc)) =
      .ok (1, 3, 0, 0x202) := by
  rfl

/-- Claim C6: `8xy4` stores the wrapping sum in `Vx` and then writes the
carry of `Vx + Vy` to `VF`; `8xy5` computes exactly the same carry on the
sum (no borrow test), writing `VF` first and then the wrapping sum to
`Vx`; both advance `PC` by 2.  Stated as exact successor states. -/
theorem C6_8xy4_8xy5_sum_carry :
    ∀ (s : Cpu) (x y : Nat),
      CpuRs.op_8xy4 s x y =
        { s with
            registers := upd (upd s.registers x ((s.registers x + s.registers y) % 256)) 0xF
              (if 255 < s.registers x + s.registers y then 1 else 0)
            pc := (s.pc + 2) % 65536 } ∧
      CpuRs.op_8xy5 s x y =
        { s with
            registers := upd (upd s.registers 0xF (if 255 < s.registers x + s.registers y then 1 else 0)) x
              ((s.registers x + s.registers y) % 256)
            pc := (s.pc + 2) % 65536 } := by
  intro s x y
  exact ⟨rfl, rfl⟩

/-- Claim C7: `8xy6` writes `Vx >> 1` to `Vx` and then the low nibble
`Vx & 0x0F` of the pre-shift value to `VF`, advancing `PC` by 2; in
particular `Vx = 0x1F` yields `VF = 0x0F`. -/
theorem C7_8xy6_low_nibble :
    (∀ (s : Cpu) (x y : Nat),
      CpuRs.op_8xy6 s x y =
        { s with
            registers := upd (upd s.registers x (s.registers x >>> 1)) 0xF (s.registers x &&& 0xF)
            pc := (s.pc + 2) % 65536 }) ∧
    (CpuRs.op_8xy6 c7cpu 1 0).registers 0xF = 0x0F := by
  exact ⟨fun s x y => rfl, by decide⟩

/-- Claim C2 counterexample: for `8xy5` with `x = 0xF` the flag is not the
last write to `VF`.  With `VF = 200`, `V0 = 200`, opcode `8F05` leaves
`VF = 144` (the wrapping sum), not the documented carry flag 1. -/
theorem C2_vf_last_write_cex :
    ¬ ((CpuRs.op_8xy5 c2cpu 15 0).registers 0xF =
        if 255 < c2cpu.registers 15 + c2cpu.registers 0 then 1 else 0) := by
  decide

/-- Claim C3 counterexample: a fatal condition is not reported as a failure
result of a normal return — executing `step()` on a fresh interpreter with
an empty program (instruction word `0x0000`, matching no decode rule)
reaches the explicit panic of the decode fallthrough (a process abort
carrying the raw opcode), while `tick` in the source returns `()` and has
no error channel at all. -/
theorem C3_fatal_crash_cex :
    CpuRs.tick zeroCpu = .error (.unexpectedOpcode 0x0000, zeroCpu) := by
  rfl

/-- Claim C4 counterexample: `00EE` with `stack_pointer = 0` does abort
with the stack-pointer underflow, but the state at the abort point is not
the pre-`step()` state: the delay timer was already decremented from 5 to
4 before the instruction executed. -/
theorem C4_no_partial_mutation_cex :
    abortReason (CpuRs.tick c4cpu) = some .subtractionOverflow ∧
    abortDelay (CpuRs.tick c4cpu) = some 4 ∧ c4cpu.delay_timer = 5 := by
  exact ⟨rfl, rfl, rfl⟩

/-- Claim C5 counterexample: for `Dxyn` with `x = 0xF` the sprite is not
blitted at `(Vx + col) mod 64` for the pre-instruction value of `Vx`.
With `VF = 5` and a one-row sprite `0x80`, opcode `DF01` lights pixel
`(0, 0)` (because `VF` is reset to 0 before the loop and re-read as the
column base), while the claim requires pixel `(0, (5 + 0) mod 64)` to
receive the XOR of the sprite bit, i.e. to become on. -/
theorem C5_vf_operand_cex :
    (CpuRs.op_dxyn c5cpu 15 0 1).map
      (fun t => (t.display.pixels 0 0, t.display.pixels 0 ((c5cpu.registers 15 + 0) % 64))) =
      .ok (true, false) ∧
    Bool.xor (c5cpu.display.pixels 0 ((c5cpu.registers 15 + 0) % 64))
      (((c5cpu.memory (c5cpu.index + 0) >>> (7 - 0)) &&& 1) != 0) = true := by
  exact ⟨rfl, rfl⟩

/-- Claim C10 counterexample: the two decode tables do not accept the same
set of instruction words — `0xB123` is decoded and executed by `cpu.rs`
but falls through to the print-and-hang arm in `main.rs`. -/
theorem C10_bnnn_cex :
    isOkE (CpuRs.execute_opcode zeroCpu 0xB123) = true ∧
    MainRs.execute_opcode zeroCpu 0xB123 = .error (.hang 0xB123, zeroCpu) := by
  exact ⟨rfl, rfl⟩

/-- Characterization of the `load` copy loop: bytes land at `0x200 + i + j`
while below 4096, and every other address is untouched. -/
theorem loadFrom_char (rom : List Nat) : ∀ (i : Nat) (mem : Nat → Nat),
    (∀ j, j < rom.length → 0x200 + i + j < 4096 →
      CpuRs.loadFrom mem i rom (0x200 + i + j) = rom.getD j 0) ∧
    (∀ a, (a < 0x200 + i ∨ 0x200 + i + rom.length ≤ a ∨ 4096 ≤ a) →
      CpuRs.loadFrom mem i rom a = mem a) := by
  induction rom with
  | nil =>
    intro i mem
    constructor
    · intro j hj hb; simp at hj
    · intro a _; rfl
  | cons b rest ih =>
    intro i mem
    simp only [CpuRs.loadFrom]
    by_cases h : 0x200 + i < 4096
    · simp only [if_pos h]
      constructor
      · intro j hj hb
        match j with
        | 0 =>
          have h2 := (ih (i + 1) (upd mem (0x200 + i) b)).2 (0x200 + i + 0) (by omega)
          rw [h2]
          simp [upd]
        | j' + 1 =>
          have h1 := (ih (i + 1) (upd mem (0x200 + i) b)).1 j'
            (by simpa using hj) (by omega)
          have : 0x200 + i + (j' + 1) = 0x200 + (i + 1) + j' := by omega
          rw [this, h1]
          simp
      · intro a ha
        have h2 := (ih (i + 1) (upd mem (0x200 + i) b)).2 a
          (by simp only [List.length_cons] at ha; omega)
        rw [h2]
        have hne : a ≠ 0x200 + i := by simp only [List.length_cons] at ha; omega
        simp [upd, hne]
    · simp only [if_neg h]
      constructor
      · intro j hj hb; omega
      · intro a _; trivial

/-- Claim C9: `load(rom)` copies `rom[i]` to `0x200 + i` for every index
with `0x200 + i < 4096`, silently drops the rest (no write at or past
4096, none past the image), and leaves `pc`, `registers`, `index`,
`stack`, `stack_pointer`, `delay_timer` and the framebuffer exactly as
they were (in particular, at their initialization values when called on a
fresh interpreter). -/
theorem C9_load_copies_truncates :
    ∀ (s : Cpu) (rom : List Nat),
      (CpuRs.load s rom).pc = s.pc ∧
      (CpuRs.load s rom).registers = s.registers ∧
      (CpuRs.load s rom).index = s.index ∧
      (CpuRs.load s rom).stack = s.stack ∧
      (CpuRs.load s rom).stack_pointer = s.stack_pointer ∧
      (CpuRs.load s rom).delay_timer = s.delay_timer ∧
      (CpuRs.load s rom).display = s.display ∧
      (∀ j, j < rom.length → 0x200 + j < 4096 →
        (CpuRs.load s rom).memory (0x200 + j) = rom.getD j 0) ∧
      (∀ a, (a < 0x200 ∨ 0x200 + rom.length ≤ a ∨ 4096 ≤ a) →
        (CpuRs.load s rom).memory a = s.memory a) := by
  intro s rom
  refine ⟨rfl, rfl, rfl, rfl, rfl, rfl, rfl, ?_, ?_⟩
  · intro j hj hb
    have h := (loadFrom_char rom 0 s.memory).1 j hj (by omega)
    simpa using h
  · intro a ha
    have h := (loadFrom_char rom 0 s.memory).2 a (by omega)
    simpa using h

/-- Witness for C9 at a concrete two-byte image. -/
theorem C9_load_copies_truncates_w :
    (CpuRs.load zeroCpu [7, 9]).memory 0x200 = 7 ∧
    (CpuRs.load zeroCpu [7, 9]).memory 0x201 = 9 ∧
    (CpuRs.load zeroCpu [7, 9]).memory 0x202 = zeroCpu.memory 0x202 ∧
    (CpuRs.load zeroCpu [7, 9]).pc = zeroCpu.pc := by
  have h := C9_load_copies_truncates zeroCpu [7, 9]
  refine ⟨?_, ?_, ?_, h.1⟩
  · have := h.2.2.2.2.2.2.2.1 0 (by decide) (by decide)
    simpa using this
  · have := h.2.2.2.2.2.2.2.1 1 (by decide) (by decide)
    simpa using this
  · exact h.2.2.2.2.2.2.2.2 0x202 (by decide)

/-- Characterization of the `Fx55` store loop: registers `0..k-1` land at
`index + offset`, every other memory cell and all other state components
are untouched. -/
theorem storeRegs_char : ∀ (k : Nat) (s : Cpu),
    (∀ off, off < k → s.index + off < 4096) →
    ∃ t, CpuRs.storeRegs s k = .ok t ∧
      t.display = s.display ∧ t.pc = s.pc ∧ t.index = s.index ∧
      t.registers = s.registers ∧ t.stack = s.stack ∧
      t.stack_pointer = s.stack_pointer ∧ t.delay_timer = s.delay_timer ∧
      (∀ off, off < k → t.memory (s.index + off) = s.registers off) ∧
      (∀ a, (∀ off, off < k → a ≠ s.index + off) → t.memory a = s.memory a) := by
  intro k
  induction k with
  | zero =>
    intro s hb
    exact ⟨s, rfl, rfl, rfl, rfl, rfl, rfl, rfl, rfl,
      fun off h => absurd h (Nat.not_lt_zero off), fun a _ => rfl⟩
  | succ k ih =>
    intro s hb
    obtain ⟨t, ht, hdisp, hpc, hidx, hregs, hstk, hsp, hdt, hw, hu⟩ :=
      ih s (fun off h => hb off (by omega))
    have hlt : s.index + k < 4096 := hb k (by omega)
    have haddr : (t.index + k) % 65536 = s.index + k := by
      rw [hidx]; exact Nat.mod_eq_of_lt (by omega)
    simp only [CpuRs.storeRegs, ht, memWrite, haddr, hregs, if_pos hlt]
    refine ⟨_, rfl, hdisp, hpc, hidx, rfl, hstk, hsp, hdt, ?_, ?_⟩
    · intro off hoff
      rcases Nat.lt_succ_iff_lt_or_eq.mp hoff with h | h
      · have hne : s.index + off ≠ s.index + k := by omega
        show upd t.memory (s.index + k) (s.registers k) (s.index + off) = s.registers off
        simp only [upd, if_neg hne]
        exact hw off h
      · subst h
        show upd t.memory (s.index + off) (s.registers off) (s.index + off) = s.registers off
        simp [upd]
    · intro a ha
      have hne : a ≠ s.index + k := ha k (by omega)
      show upd t.memory (s.index + k) (s.registers k) a = s.memory a
      simp only [upd, if_neg hne]
      exact hu a (fun off hoff => ha off (by omega))

/-- Characterization of the `Fx65` load loop: registers `0..k-1` are
overwritten from memory at `index + offset`, the rest of the register file
and every other state component is untouched. -/
theorem loadRegs_char : ∀ (k : Nat) (s : Cpu),
    (∀ off, off < k → s.index + off < 4096) →
    ∃ t, CpuRs.loadRegs s k = .ok t ∧
      t.display = s.display ∧ t.pc = s.pc ∧ t.index = s.index ∧
      t.memory = s.memory ∧ t.stack = s.stack ∧
      t.stack_pointer = s.stack_pointer ∧ t.delay_timer = s.delay_timer ∧
      (∀ i, i < k → t.registers i = s.memory (s.index + i)) ∧
      (∀ i, k ≤ i → t.registers i = s.registers i) := by
  intro k
  induction k with
  | zero =>
    intro s hb
    exact ⟨s, rfl, rfl, rfl, rfl, rfl, rfl, rfl, rfl,
      fun i h => absurd h (Nat.not_lt_zero i), fun i _ => rfl⟩
  | succ k ih =>
    intro s hb
    obtain ⟨t, ht, hdisp, hpc, hidx, hmem, hstk, hsp, hdt, hr, hkeep⟩ :=
      ih s (fun off h => hb off (by omega))
    have hlt : s.index + k < 4096 := hb k (by omega)
    have haddr : (t.index + k) % 65536 = s.index + k := by
      rw [hidx]; exact Nat.mod_eq_of_lt (by omega)
    simp only [CpuRs.loadRegs, ht, haddr, hmem, if_pos hlt]
    refine ⟨_, rfl, hdisp, hpc, hidx, rfl, hstk, hsp, hdt, ?_, ?_⟩
    · intro i hi
      rcases Nat.lt_succ_iff_lt_or_eq.mp hi with h | h
      · have hne : i ≠ k := by omega
        show upd t.registers k (s.memory (s.index + k)) i = s.memory (s.index + i)
        simp only [upd, if_neg hne]
        exact hr i h
      · subst h
        show upd t.registers i (s.memory (s.index + i)) i = s.memory (s.index + i)
        simp [upd]
    · intro i hi
      have hne : i ≠ k := by omega
      show upd t.registers k (s.memory (s.index + k)) i = s.registers i
      simp only [upd, if_neg hne]
      exact hkeep i (by omega)

/-- Claim C8: for `x ≤ 0xF` with the whole block `index .. index + x`
inside memory, `Fx55` then `Fx65` (same `x`, same `index`, nothing touched
in between) restores every register to its value before the store. -/
theorem C8_store_load_roundtrip :
    ∀ (s : Cpu) (x : Nat), x ≤ 0xF → s.index + x < 4096 →
    ∀ i, Except.map (fun s2 => s2.registers i)
        (Except.bind (CpuRs.op_fx55 s x) (fun s1 => CpuRs.op_fx65 s1 x)) =
      Except.ok (s.registers i) := by
  intro s x hx hb i
  obtain ⟨t, ht, hdisp, hpc, hidx, hregs, hstk, hsp, hdt, hw, hu⟩ :=
    storeRegs_char (x + 1) s (fun off h => by omega)
  simp only [CpuRs.op_fx55, ht, Except.bind]
  obtain ⟨u, hu2, hdisp2, hpc2, hidx2, hmem2, hstk2, hsp2, hdt2, hr2, hkeep2⟩ :=
    loadRegs_char (x + 1) { t with pc := (t.pc + 2) % 65536 }
      (fun off h => by
        show t.index + off < 4096
        rw [hidx]; omega)
  simp only [CpuRs.op_fx65, hu2, Except.map]
  have hfinal : u.registers i = s.registers i := by
    by_cases hi : i < x + 1
    · have h1 := hr2 i hi
      have h2 : t.index + i = s.index + i := by rw [hidx]
      rw [h1]
      show t.memory (t.index + i) = s.registers i
      rw [h2]
      exact hw i hi
    · have h1 := hkeep2 i (by omega)
      rw [h1]
      show t.registers i = s.registers i
      rw [hregs]
  rw [hfinal]

/-- Witness for C8: the round trip at `V0 = 123`, `index = 0x300`, `x = 3`. -/
theorem C8_store_load_roundtrip_w :
    Except.map (fun s2 => s2.registers 0)
        (Except.bind (CpuRs.op_fx55 c1cpu 3) (fun s1 => CpuRs.op_fx65 s1 3)) =
      Except.ok (c1cpu.registers 0) :=
  C8_store_load_roundtrip c1cpu 3 (by decide) (by decide) 0

/-- An instruction word matching no arm of the `cpu.rs` decode table makes
`execute_opcode` reach the explicit panic carrying the raw opcode, with the
state untouched. -/
theorem cpu_exec_unaccepted (s : Cpu) (w : Nat) (h : CpuRs.accepts w = false) :
    CpuRs.execute_opcode s w = .error (.unexpectedOpcode w, s) := by
  simp only [CpuRs.accepts, Bool.or_eq_false_iff, decide_eq_false_iff_not] at h
  obtain ⟨⟨⟨⟨⟨⟨⟨⟨⟨⟨⟨⟨⟨⟨⟨⟨⟨⟨⟨⟨⟨⟨⟨⟨⟨h1, h2⟩, h3⟩, h4⟩, h5⟩, h6⟩, h7⟩, h8⟩, h9⟩, h10⟩, h11⟩, h12⟩, h13⟩, h14⟩, h15⟩, h16⟩, h17⟩, h18⟩, h19⟩, h20⟩, h21⟩, h22⟩, h23⟩, h24⟩, h25⟩, h26⟩ := h
  simp only [CpuRs.execute_opcode]
  rw [if_neg h1, if_neg h2, if_neg h3, if_neg h4, if_neg h5, if_neg h6,
    if_neg h7, if_neg h8, if_neg h9, if_neg h10, if_neg h11, if_neg h12,
    if_neg h13, if_neg h14, if_neg h15, if_neg h16, if_neg h17, if_neg h18,
    if_neg h19, if_neg h20, if_neg h21, if_neg h22, if_neg h23, if_neg h24,
    if_neg h25, if_neg h26]

/-- A call with the stack pointer at 16 hits the bounds check of the stack
write in `op_2nnn` before any mutation. -/
theorem cpu_exec_call_overflow (s : Cpu) (w : Nat)
    (h : (w &&& 0xF000) >>> 12 = 0x2) (hsp : s.stack_pointer = 16) :
    CpuRs.execute_opcode s w = .error (.indexOutOfBounds, s) := by
  simp [CpuRs.execute_opcode, h, CpuRs.op_2nnn, hsp]

/-- A return with the stack pointer at 0 hits the overflow-checked
decrement in `op_00ee` before any mutation. -/
theorem cpu_exec_ret_underflow (s : Cpu) (w : Nat)
    (h0 : (w &&& 0xF000) >>> 12 = 0x0) (h1 : (w &&& 0x0F00) >>> 8 = 0x0)
    (h2 : (w &&& 0x00F0) >>> 4 = 0xE) (h3 : w &&& 0x000F = 0xE)
    (hsp : s.stack_pointer = 0) :
    CpuRs.execute_opcode s w = .error (.subtractionOverflow, s) := by
  simp [CpuRs.execute_opcode, h0, h1, h2, h3, CpuRs.op_00ee, hsp]

/-- Changing only the delay timer does not change a successful fetch. -/
theorem fetch_opcode_delay (s : Cpu) (d : Nat) (w : Nat)
    (hw : CpuRs.fetch_opcode s = .ok w) :
    CpuRs.fetch_opcode { s with delay_timer := d } = .ok w := by
  simp only [CpuRs.fetch_opcode] at hw ⊢
  split_ifs at hw ⊢
  simp_all

/-- Unfolding of `tick`: decrement the delay timer if nonzero, then execute the
fetched word on the decremented state. -/
theorem tick_exec (s : Cpu) (w : Nat) (hw : CpuRs.fetch_opcode s = .ok w) :
    CpuRs.tick s = CpuRs.execute_opcode
      (if 0 < s.delay_timer then { s with delay_timer := s.delay_timer - 1 } else s) w := by
  by_cases hd : 0 < s.delay_timer
  · simp only [CpuRs.tick, if_pos hd]
    rw [fetch_opcode_delay s (s.delay_timer - 1) w hw]
  · simp only [CpuRs.tick, if_neg hd]
    rw [hw]

/-- Claim C3 (amended): each fatal condition of `step()` is detected and
aborts the process through a distinct Rust panic — the unimplemented
opcode through the explicit panic carrying the raw opcode value, a call
with the stack pointer at 16 through the stack-index bounds check, and a
return with the stack pointer at 0 through the checked stack-pointer
decrement.  No failure result is returned to the caller: `tick` in the
source returns `()` and has no error channel, so the report is the abort
itself, not a result value. -/
theorem C3_fatal_conditions_distinct :
    ∀ (s : Cpu) (w : Nat),
      CpuRs.fetch_opcode s = .ok w →
      (CpuRs.accepts w = false →
        CpuRs.tick s = .error (.unexpectedOpcode w,
          if 0 < s.delay_timer then { s with delay_timer := s.delay_timer - 1 } else s)) ∧
      ((w &&& 0xF000) >>> 12 = 0x2 → s.stack_pointer = 16 →
        CpuRs.tick s = .error (.indexOutOfBounds,
          if 0 < s.delay_timer then { s with delay_timer := s.delay_timer - 1 } else s)) ∧
      (w = 0x00EE → s.stack_pointer = 0 →
        CpuRs.tick s = .error (.subtractionOverflow,
          if 0 < s.delay_timer then { s with delay_timer := s.delay_timer - 1 } else s)) := by
  intro s w hw
  refine ⟨?_, ?_, ?_⟩
  · intro hacc
    rw [tick_exec s w hw]
    split
    · exact cpu_exec_unaccepted _ w hacc
    · exact cpu_exec_unaccepted _ w hacc
  · intro h2 hsp
    rw [tick_exec s w hw]
    split
    · exact cpu_exec_call_overflow _ w h2 hsp
    · exact cpu_exec_call_overflow _ w h2 hsp
  · intro hee hsp
    subst hee
    rw [tick_exec s 0x00EE hw]
    split
    · exact cpu_exec_ret_underflow _ 0x00EE (by decide) (by decide) (by decide) (by decide) hsp
    · exact cpu_exec_ret_underflow _ 0x00EE (by decide) (by decide) (by decide) (by decide) hsp

/-- Witness for C3: on a fresh state with an all-zero program, `step()`
reaches the unimplemented-opcode abort carrying opcode `0x0000`. -/
theorem C3_fatal_conditions_distinct_w :
    CpuRs.tick zeroCpu = .error (.unexpectedOpcode 0,
      if 0 < zeroCpu.delay_timer then { zeroCpu with delay_timer := zeroCpu.delay_timer - 1 }
      else zeroCpu) :=
  (C3_fatal_conditions_distinct zeroCpu 0 rfl).1 (by decide)

/-- Claim C4 (amended): `00EE` with `stack_pointer = 0` makes `step()`
abort with the stack-pointer underflow; the state at the abort point is
the pre-call state except that the delay timer has already been
decremented when it was nonzero — `pc`, registers, index register, stack,
stack pointer, memory and framebuffer are all unchanged. -/
theorem C4_underflow_partial_state :
    ∀ (s : Cpu), s.stack_pointer = 0 →
      CpuRs.fetch_opcode s = .ok 0x00EE →
      CpuRs.tick s = .error (.subtractionOverflow,
        if 0 < s.delay_timer then { s with delay_timer := s.delay_timer - 1 } else s) := by
  intro s hsp hw
  rw [tick_exec s 0x00EE hw]
  split
  · exact cpu_exec_ret_underflow _ 0x00EE (by decide) (by decide) (by decide) (by decide) hsp
  · exact cpu_exec_ret_underflow _ 0x00EE (by decide) (by decide) (by decide) (by decide) hsp

/-- Witness for C4 at the concrete underflow state (`delay_timer = 5`). -/
theorem C4_underflow_partial_state_w :
    CpuRs.tick c4cpu = .error (.subtractionOverflow,
      if 0 < c4cpu.delay_timer then { c4cpu with delay_timer := c4cpu.delay_timer - 1 }
      else c4cpu) :=
  C4_underflow_partial_state c4cpu rfl rfl

/-- Splitting a bounded existential at the top index. -/
theorem exists_lt_succ (m : Nat) (A : Nat → Prop) :
    (∃ i, i < m + 1 ∧ A i) ↔ (∃ i, i < m ∧ A i) ∨ A m := by
  constructor
  · rintro ⟨i, hi, hA⟩
    rcases Nat.lt_succ_iff_lt_or_eq.mp hi with h | h
    · exact Or.inl ⟨i, h, hA⟩
    · subst h; exact Or.inr hA
  · rintro (⟨i, h, hA⟩ | hA)
    · exact ⟨i, by omega, hA⟩
    · exact ⟨m, by omega, hA⟩

/-- Bitwise or of two 0/1 indicators is the indicator of the disjunction. -/
theorem indicator_lor (P Q : Prop) [Decidable P] [Decidable Q] :
    ((if P then 1 else 0) ||| (if Q then 1 else 0) : Nat) = if P ∨ Q then 1 else 0 := by
  by_cases hP : P <;> by_cases hQ : Q <;> simp [hP, hQ]

/-- Any value bitwise-anded with 1 is 0 or 1. -/
theorem and_one_cases (m : Nat) : m &&& 1 = 0 ∨ m &&& 1 = 1 := by
  rw [Nat.and_one_is_mod]; omega

theorem upd_same (f : Nat → Nat) (i v : Nat) : upd f i v i = v := by
  simp [upd]

theorem upd_other (f : Nat → Nat) (i v j : Nat) (h : j ≠ i) : upd f i v j = f j := by
  simp [upd, h]

/-- Characterization of the inner sprite loop for a non-VF column operand:
after `k ≤ 8` bits, the 8 pixels of the row are XOR-blitted at columns
`(Vx + bit) mod 64`, VF has OR-accumulated a collision indicator for this
row, and everything else is unchanged. -/
theorem drawBits_char (x rowY byte : Nat) (hx : x ≠ 15) :
    ∀ (k : Nat), k ≤ 8 → ∀ (s : Cpu), s.index + byte < 4096 →
    ∃ t, CpuRs.drawBits x rowY byte s k = .ok t ∧
      t.memory = s.memory ∧ t.pc = s.pc ∧ t.index = s.index ∧
      t.stack = s.stack ∧ t.stack_pointer = s.stack_pointer ∧
      t.delay_timer = s.delay_timer ∧
      (∀ i, i ≠ 15 → t.registers i = s.registers i) ∧
      (t.registers 15 = s.registers 15 |||
        (if ∃ bit, bit < k ∧ (s.memory (s.index + byte) >>> (7 - bit)) &&& 1 = 1 ∧
              s.display.pixels rowY ((s.registers x + bit) % 64) = true then 1 else 0)) ∧
      (∀ bit, bit < k →
        t.display.pixels rowY ((s.registers x + bit) % 64) =
          Bool.xor (s.display.pixels rowY ((s.registers x + bit) % 64))
            (((s.memory (s.index + byte) >>> (7 - bit)) &&& 1) != 0)) ∧
      (∀ r c, (r ≠ rowY ∨ ∀ bit, bit < k → c ≠ (s.registers x + bit) % 64) →
        t.display.pixels r c = s.display.pixels r c) := by
  intro k
  induction k with
  | zero =>
    intro hk s hb
    refine ⟨s, rfl, rfl, rfl, rfl, rfl, rfl, rfl, fun i _ => rfl, ?_, ?_, fun r c _ => rfl⟩
    · simp
    · intro bit h
      exact absurd h (by omega)
  | succ k ih =>
    intro hk s hb
    obtain ⟨t, ht, hmem, hpc, hidx, hstk, hsp, hdt, hreg, hvf, hpix, hunch⟩ :=
      ih (by omega) s hb
    have hrx : t.registers x = s.registers x := hreg x hx
    have hbt : t.index + byte < 4096 := by rw [hidx]; exact hb
    have hcolnew : ∀ bit, bit < k → (s.registers x + k) % 64 ≠ (s.registers x + bit) % 64 := by
      intro bit hbit hcontra
      omega
    have htold : t.display.pixels rowY ((s.registers x + k) % 64) =
        s.display.pixels rowY ((s.registers x + k) % 64) :=
      hunch rowY ((s.registers x + k) % 64) (Or.inr hcolnew)
    simp only [CpuRs.drawBits, ht, Display.WIDTH]
    rw [hrx, hmem, hidx]
    rw [if_pos hb]
    refine ⟨_, rfl, rfl, hpc, rfl, hstk, hsp, hdt, ?_, ?_, ?_, ?_⟩
    · intro i hi
      show upd t.registers 15 _ i = s.registers i
      simp only [upd, if_neg hi]
      exact hreg i hi
    · dsimp only
      rw [upd_same, htold, hvf, Nat.lor_assoc]
      congr 1
      have htoff :
          ((s.memory (s.index + byte) >>> (7 - k)) &&& 1) &&&
              (s.display.pixels rowY ((s.registers x + k) % 64)).toNat =
            if ((s.memory (s.index + byte) >>> (7 - k)) &&& 1 = 1 ∧
                s.display.pixels rowY ((s.registers x + k) % 64) = true) then 1 else 0 := by
        rcases and_one_cases (s.memory (s.index + byte) >>> (7 - k)) with hc | hc <;>
          cases hpixv : s.display.pixels rowY ((s.registers x + k) % 64) <;>
            simp [hc, hpixv]
      rw [htoff, indicator_lor]
      have hiff : (∃ bit, bit < k + 1 ∧ (s.memory (s.index + byte) >>> (7 - bit)) &&& 1 = 1 ∧
            s.display.pixels rowY ((s.registers x + bit) % 64) = true) ↔
          ((∃ bit, bit < k ∧ (s.memory (s.index + byte) >>> (7 - bit)) &&& 1 = 1 ∧
            s.display.pixels rowY ((s.registers x + bit) % 64) = true) ∨
           ((s.memory (s.index + byte) >>> (7 - k)) &&& 1 = 1 ∧
            s.display.pixels rowY ((s.registers x + k) % 64) = true)) :=
        exists_lt_succ k _
      simp only [hiff]
    · intro bit hbit
      rcases Nat.lt_succ_iff_lt_or_eq.mp hbit with hlt | heq
      · show (setPix t.display rowY ((s.registers x + k) % 64) _).pixels rowY
            ((s.registers x + bit) % 64) = _
        simp only [setPix]
        rw [if_neg (by
          intro hand
          exact hcolnew bit hlt hand.2.symm)]
        exact hpix bit hlt
      · subst heq
        show (setPix t.display rowY ((s.registers x + bit) % 64) _).pixels rowY
            ((s.registers x + bit) % 64) = _
        simp [setPix, htold]
    · intro r c hcond
      have hne : ¬(r = rowY ∧ c = (s.registers x + k) % 64) := by
        rcases hcond with h | h
        · intro hand; exact h hand.1
        · intro hand; exact h k (by omega) hand.2
      show (setPix t.display rowY ((s.registers x + k) % 64) _).pixels r c = _
      simp only [setPix, if_neg hne]
      refine hunch r c ?_
      rcases hcond with h | h
      · exact Or.inl h
      · exact Or.inr (fun bit hbit => h bit (by omega))

/-- Characterization of the sprite row loop for non-VF operands: after
`m ≤ 16` rows, every sprite bit has been XOR-blitted at
`((Vy + row) mod 32, (Vx + col) mod 64)`, VF holds the OR of the per-bit
collision indicators on top of its entry value, and everything else is
unchanged. -/
theorem drawRows_char (x y : Nat) (hx : x ≠ 15) (hy : y ≠ 15) :
    ∀ (m : Nat), m ≤ 16 → ∀ (s : Cpu), (∀ r, r < m → s.index + r < 4096) →
    ∃ t, CpuRs.drawRows x y s m = .ok t ∧
      t.memory = s.memory ∧ t.pc = s.pc ∧ t.index = s.index ∧
      t.stack = s.stack ∧ t.stack_pointer = s.stack_pointer ∧ t.delay_timer = s.delay_timer ∧
      (∀ i, i ≠ 15 → t.registers i = s.registers i) ∧
      (t.registers 15 = s.registers 15 |||
        (if ∃ row : Nat, row < m ∧ ∃ col : Nat, col < 8 ∧
              (s.memory (s.index + row) >>> (7 - col)) &&& 1 = 1 ∧
              s.display.pixels ((s.registers y + row) % 32) ((s.registers x + col) % 64) = true
          then 1 else 0)) ∧
      (∀ row col, row < m → col < 8 →
        t.display.pixels ((s.registers y + row) % 32) ((s.registers x + col) % 64) =
          Bool.xor (s.display.pixels ((s.registers y + row) % 32) ((s.registers x + col) % 64))
            (((s.memory (s.index + row) >>> (7 - col)) &&& 1) != 0)) ∧
      (∀ r c, (∀ row col, row < m → col < 8 →
          ¬(r = (s.registers y + row) % 32 ∧ c = (s.registers x + col) % 64)) →
        t.display.pixels r c = s.display.pixels r c) := by
  intro m
  induction m with
  | zero =>
    intro hm s hb
    refine ⟨s, rfl, rfl, rfl, rfl, rfl, rfl, rfl, fun i _ => rfl, ?_,
      ?_, fun r c _ => rfl⟩
    · simp
    · intro row col h
      exact absurd h (by omega)
  | succ m ih =>
    intro hm s hb
    obtain ⟨t, ht, hmem, hpc, hidx, hstk, hsp, hdt, hreg, hvf, hpix, hunch⟩ :=
      ih (by omega) s (fun r hr => hb r (by omega))
    have hry : t.registers y = s.registers y := hreg y hy
    have hrx : t.registers x = s.registers x := hreg x hx
    have hbm : t.index + m < 4096 := by rw [hidx]; exact hb m (by omega)
    obtain ⟨u, hu, humem, hupc, huidx, hustk, husp, hudt, hureg, huvf, hupix, huunch⟩ :=
      drawBits_char x ((s.registers y + m) % 32) m hx 8 (by omega) t hbm
    have hrowne : ∀ row, row < m →
        (s.registers y + row) % 32 ≠ (s.registers y + m) % 32 := by
      intro row hrow hcontra
      omega
    have hpixm : ∀ c, t.display.pixels ((s.registers y + m) % 32) c =
        s.display.pixels ((s.registers y + m) % 32) c := by
      intro c
      refine hunch _ c ?_
      intro row col hrow hcol hand
      exact hrowne row hrow hand.1.symm
    simp only [CpuRs.drawRows, ht, Display.HEIGHT]
    rw [hry, hu]
    refine ⟨u, rfl, humem.trans hmem, hupc.trans hpc, huidx.trans hidx,
      hustk.trans hstk, husp.trans hsp, hudt.trans hdt,
      (fun i hi => (hureg i hi).trans (hreg i hi)), ?_, ?_, ?_⟩
    · rw [huvf, hvf, Nat.lor_assoc]
      congr 1
      simp only [hmem, hidx, hrx, hpixm]
      rw [indicator_lor]
      have hiff : (∃ row, row < m + 1 ∧ ∃ col, col < 8 ∧
            (s.memory (s.index + row) >>> (7 - col)) &&& 1 = 1 ∧
            s.display.pixels ((s.registers y + row) % 32) ((s.registers x + col) % 64) = true) ↔
          ((∃ row, row < m ∧ ∃ col, col < 8 ∧
            (s.memory (s.index + row) >>> (7 - col)) &&& 1 = 1 ∧
            s.display.pixels ((s.registers y + row) % 32) ((s.registers x + col) % 64) = true) ∨
           (∃ col, col < 8 ∧
            (s.memory (s.index + m) >>> (7 - col)) &&& 1 = 1 ∧
            s.display.pixels ((s.registers y + m) % 32) ((s.registers x + col) % 64) = true)) :=
        exists_lt_succ m _
      simp only [hiff]
    · intro row col hrow hcol
      rcases Nat.lt_succ_iff_lt_or_eq.mp hrow with hlt | heq
      · rw [huunch _ _ (Or.inl (hrowne row hlt))]
        exact hpix row col hlt hcol
      · subst heq
        have := hupix col hcol
        rw [hrx, hmem, hidx, hpixm] at this
        exact this
    · intro r c hcond
      have hstep : u.display.pixels r c = t.display.pixels r c := by
        refine huunch r c ?_
        by_cases hr : r = (s.registers y + m) % 32
        · refine Or.inr ?_
          intro bit hbit hceq
          refine hcond m bit (by omega) hbit ⟨hr, ?_⟩
          rw [← hrx]
          exact hceq
        · exact Or.inl hr
      rw [hstep]
      refine hunch r c ?_
      intro row col hrow hcol
      exact hcond row col (by omega) hcol

/-- Full characterization of `op_dxyn` for operand registers other than VF:
VF is reset, the sprite is XOR-blitted with wraparound, VF ends as the
collision indicator, and PC advances by 2. -/
theorem dxyn_char (s : Cpu) (x y n : Nat) (hx : x ≠ 0xF) (hy : y ≠ 0xF) (hn : n ≤ 15)
    (hb : ∀ r, r < n → s.index + r < 4096) :
    ∃ t, CpuRs.op_dxyn s x y n = .ok t ∧
      t.pc = (s.pc + 2) % 65536 ∧
      t.memory = s.memory ∧ t.index = s.index ∧ t.stack = s.stack ∧
      t.stack_pointer = s.stack_pointer ∧ t.delay_timer = s.delay_timer ∧
      (∀ i, i ≠ 0xF → t.registers i = s.registers i) ∧
      (t.registers 0xF =
        (if ∃ row : Nat, row < n ∧ ∃ col : Nat, col < 8 ∧
              (s.memory (s.index + row) >>> (7 - col)) &&& 1 = 1 ∧
              s.display.pixels ((s.registers y + row) % 32) ((s.registers x + col) % 64) = true
          then 1 else 0)) ∧
      (∀ row col, row < n → col < 8 →
        t.display.pixels ((s.registers y + row) % 32) ((s.registers x + col) % 64) =
          Bool.xor (s.display.pixels ((s.registers y + row) % 32) ((s.registers x + col) % 64))
            (((s.memory (s.index + row) >>> (7 - col)) &&& 1) != 0)) ∧
      (∀ r c, (∀ row col, row < n → col < 8 →
          ¬(r = (s.registers y + row) % 32 ∧ c = (s.registers x + col) % 64)) →
        t.display.pixels r c = s.display.pixels r c) := by
  obtain ⟨t, ht, hmem, hpc, hidx, hstk, hsp, hdt, hreg, hvf, hpix, hunch⟩ :=
    drawRows_char x y hx hy n (by omega)
      { s with registers := upd s.registers 0xF 0 } (fun r hr => hb r hr)
  have hsx : ({ s with registers := upd s.registers 0xF 0 } : Cpu).registers x
      = s.registers x := by dsimp only; exact upd_other _ _ _ _ hx
  have hsy : ({ s with registers := upd s.registers 0xF 0 } : Cpu).registers y
      = s.registers y := by dsimp only; exact upd_other _ _ _ _ hy
  have hs15 : ({ s with registers := upd s.registers 0xF 0 } : Cpu).registers 15
      = 0 := by dsimp only; exact upd_same _ _ _
  simp only [CpuRs.op_dxyn, ht]
  refine ⟨_, rfl, ?_, hmem, hidx, hstk, hsp, hdt, ?_, ?_, ?_, ?_⟩
  · show (t.pc + 2) % 65536 = (s.pc + 2) % 65536
    rw [hpc]
  · intro i hi
    refine (hreg i hi).trans ?_
    dsimp only
    exact upd_other _ _ _ _ hi
  · show t.registers 15 = _
    rw [hvf, hsx, hsy, hs15]
    dsimp only
    rw [Nat.zero_or]
  · intro row col hrow hcol
    have h2 := hpix row col hrow hcol
    rw [hsx, hsy] at h2
    dsimp only at h2
    exact h2
  · intro r c hc
    refine hunch r c ?_
    intro row col hrow hcol
    rw [hsx, hsy]
    exact hc row col hrow hcol

/-- Claim C5 (amended): for every `n ≤ 15` and operand registers other than
VF (`x ≠ 0xF`, `y ≠ 0xF`), with the `n` sprite rows readable at
`index_register`, `Dxyn` XOR-blits each of the `n × 8` sprite bits onto the
pixel at `((Vx + col) mod 64, (Vy + row) mod 32)` — wrapping, never out of
bounds — touches no other pixel, sets `VF` to 1 iff at least one pixel went
from on to off during the whole draw (reset to 0 first, then
OR-accumulated), and advances `PC` by 2.  When `x = 0xF` or `y = 0xF` the
claim as stated fails, because `VF` is reset before the loop and re-read as
the coordinate base (see the counterexample). -/
theorem C5_dxyn_draw :
    ∀ (s : Cpu) (x y n : Nat), x ≠ 0xF → y ≠ 0xF → n ≤ 15 →
      (∀ r, r < n → s.index + r < 4096) →
      ∃ t, CpuRs.op_dxyn s x y n = .ok t ∧
        t.pc = (s.pc + 2) % 65536 ∧
        t.memory = s.memory ∧ t.index = s.index ∧ t.stack = s.stack ∧
        t.stack_pointer = s.stack_pointer ∧ t.delay_timer = s.delay_timer ∧
        (∀ i, i ≠ 0xF → t.registers i = s.registers i) ∧
        (t.registers 0xF =
          (if ∃ row : Nat, row < n ∧ ∃ col : Nat, col < 8 ∧
                (s.memory (s.index + row) >>> (7 - col)) &&& 1 = 1 ∧
                s.display.pixels ((s.registers y + row) % 32) ((s.registers x + col) % 64) = true
            then 1 else 0)) ∧
        (∀ row col, row < n → col < 8 →
          t.display.pixels ((s.registers y + row) % 32) ((s.registers x + col) % 64) =
            Bool.xor (s.display.pixels ((s.registers y + row) % 32) ((s.registers x + col) % 64))
              (((s.memory (s.index + row) >>> (7 - col)) &&& 1) != 0)) ∧
        (∀ r c, (∀ row col, row < n → col < 8 →
            ¬(r = (s.registers y + row) % 32 ∧ c = (s.registers x + col) % 64)) →
          t.display.pixels r c = s.display.pixels r c) :=
  fun s x y n hx hy hn hb => dxyn_char s x y n hx hy hn hb

/-- Witness for C5: drawing the one-row sprite `0x80` at `V1 = 63, V2 = 0`
(opcode `D121`) on the state `c5cpu` — the sprite bit wraps nowhere here
but the hypotheses are all discharged concretely. -/
theorem C5_dxyn_draw_w :
    ∃ t, CpuRs.op_dxyn c5cpu 1 2 1 = .ok t ∧
      t.pc = (c5cpu.pc + 2) % 65536 ∧
      t.memory = c5cpu.memory ∧ t.index = c5cpu.index ∧ t.stack = c5cpu.stack ∧
      t.stack_pointer = c5cpu.stack_pointer ∧ t.delay_timer = c5cpu.delay_timer ∧
      (∀ i, i ≠ 0xF → t.registers i = c5cpu.registers i) ∧
      (t.registers 0xF =
        (if ∃ row : Nat, row < 1 ∧ ∃ col : Nat, col < 8 ∧
              (c5cpu.memory (c5cpu.index + row) >>> (7 - col)) &&& 1 = 1 ∧
              c5cpu.display.pixels ((c5cpu.registers 2 + row) % 32)
                ((c5cpu.registers 1 + col) % 64) = true
          then 1 else 0)) ∧
      (∀ row col, row < 1 → col < 8 →
        t.display.pixels ((c5cpu.registers 2 + row) % 32) ((c5cpu.registers 1 + col) % 64) =
          Bool.xor (c5cpu.display.pixels ((c5cpu.registers 2 + row) % 32)
              ((c5cpu.registers 1 + col) % 64))
            (((c5cpu.memory (c5cpu.index + row) >>> (7 - col)) &&& 1) != 0)) ∧
      (∀ r c, (∀ row col, row < 1 → col < 8 →
          ¬(r = (c5cpu.registers 2 + row) % 32 ∧ c = (c5cpu.registers 1 + col) % 64)) →
        t.display.pixels r c = c5cpu.display.pixels r c) :=
  C5_dxyn_draw c5cpu 1 2 1 (by decide) (by decide) (by decide)
    (fun r hr => by interval_cases r <;> decide)

/-- Claim C2 (amended): the documented flag value is the last write to VF,
so VF after the instruction equals it, for `8xy4`, `8xy6` and `8xyE` with
every operand choice including `x = 0xF`; for `8xy5` and `8xy7` only when
`x ≠ 0xF` — when `x = 0xF` the flag is written first and then silently
overwritten by the wrapping sum (see the counterexample); and for `Dxyn`
with operand registers other than VF and the sprite rows in bounds, VF
ends as the collision flag of the draw. -/
theorem C2_vf_flag_final :
    ∀ (s : Cpu) (x y n : Nat),
      ((CpuRs.op_8xy4 s x y).registers 0xF =
        (if 255 < s.registers x + s.registers y then 1 else 0)) ∧
      ((CpuRs.op_8xy6 s x y).registers 0xF = s.registers x &&& 0xF) ∧
      ((CpuRs.op_8xye s x y).registers 0xF = s.registers x >>> 7) ∧
      (x ≠ 0xF → (CpuRs.op_8xy5 s x y).registers 0xF =
        (if 255 < s.registers x + s.registers y then 1 else 0)) ∧
      (x ≠ 0xF → (CpuRs.op_8xy7 s x y).registers 0xF =
        (if 255 < s.registers y + s.registers x then 1 else 0)) ∧
      (x ≠ 0xF → y ≠ 0xF → n ≤ 15 → (∀ r, r < n → s.index + r < 4096) →
        Except.map (fun t => t.registers 0xF) (CpuRs.op_dxyn s x y n) =
          .ok (if ∃ row : Nat, row < n ∧ ∃ col : Nat, col < 8 ∧
                (s.memory (s.index + row) >>> (7 - col)) &&& 1 = 1 ∧
                s.display.pixels ((s.registers y + row) % 32) ((s.registers x + col) % 64) = true
            then 1 else 0)) := by
  intro s x y n
  refine ⟨?_, ?_, ?_, ?_, ?_, ?_⟩
  · show upd (upd s.registers x ((s.registers x + s.registers y) % 256)) 0xF
        (if 255 < s.registers x + s.registers y then 1 else 0) 0xF = _
    rw [upd_same]
  · show upd (upd s.registers x (s.registers x >>> 1)) 0xF (s.registers x &&& 0xF) 0xF = _
    rw [upd_same]
  · show upd (upd s.registers x ((s.registers x <<< 1) % 256)) 0xF (s.registers x >>> 7) 0xF = _
    rw [upd_same]
  · intro hx
    show upd (upd s.registers 0xF (if 255 < s.registers x + s.registers y then 1 else 0)) x
        ((s.registers x + s.registers y) % 256) 0xF = _
    rw [upd_other _ _ _ _ (Ne.symm hx), upd_same]
  · intro hx
    show upd (upd s.registers 0xF (if 255 < s.registers y + s.registers x then 1 else 0)) x
        ((s.registers y + s.registers x) % 256) 0xF = _
    rw [upd_other _ _ _ _ (Ne.symm hx), upd_same]
  · intro hx hy hn hb
    obtain ⟨t, ht, hpc, hmem, hidx, hstk, hsp, hdt, hreg, hvf, hpix, hunch⟩ :=
      dxyn_char s x y n hx hy hn hb
    rw [ht, Except.map, hvf]

/-- Witness for C2 at concrete operands `x = 1`, `y = 2`, `n = 1` on the
state `c5cpu`. -/
theorem C2_vf_flag_final_w :
    ((CpuRs.op_8xy5 c5cpu 1 2).registers 0xF =
      (if 255 < c5cpu.registers 1 + c5cpu.registers 2 then 1 else 0)) ∧
    ((CpuRs.op_8xy7 c5cpu 1 2).registers 0xF =
      (if 255 < c5cpu.registers 2 + c5cpu.registers 1 then 1 else 0)) ∧
    (Except.map (fun t => t.registers 0xF) (CpuRs.op_dxyn c5cpu 1 2 1) =
      .ok (if ∃ row : Nat, row < 1 ∧ ∃ col : Nat, col < 8 ∧
            (c5cpu.memory (c5cpu.index + row) >>> (7 - col)) &&& 1 = 1 ∧
            c5cpu.display.pixels ((c5cpu.registers 2 + row) % 32)
              ((c5cpu.registers 1 + col) % 64) = true
        then 1 else 0)) :=
  ⟨(C2_vf_flag_final c5cpu 1 2 1).2.2.2.1 (by decide),
   (C2_vf_flag_final c5cpu 1 2 1).2.2.2.2.1 (by decide),
   (C2_vf_flag_final c5cpu 1 2 1).2.2.2.2.2 (by decide) (by decide) (by decide)
     (fun r hr => by interval_cases r <;> decide)⟩

/-- The handlers duplicated in `main.rs` coincide with those of `cpu.rs`
(definitional equality for the non-loop handlers). -/
theorem main_op_00e0_eq (s : Cpu) : MainRs.op_00e0 s = CpuRs.op_00e0 s := rfl

theorem main_op_00ee_eq (s : Cpu) : MainRs.op_00ee s = CpuRs.op_00ee s := rfl

theorem main_op_1nnn_eq (s : Cpu) (nnn : Nat) : MainRs.op_1nnn s nnn = CpuRs.op_1nnn s nnn := rfl

theorem main_op_2nnn_eq (s : Cpu) (nnn : Nat) : MainRs.op_2nnn s nnn = CpuRs.op_2nnn s nnn := rfl

theorem main_op_3xnn_eq (s : Cpu) (x nn : Nat) : MainRs.op_3xnn s x nn = CpuRs.op_3xnn s x nn := rfl

theorem main_op_4xnn_eq (s : Cpu) (x nn : Nat) : MainRs.op_4xnn s x nn = CpuRs.op_4xnn s x nn := rfl

theorem main_op_5xy0_eq (s : Cpu) (x y : Nat) : MainRs.op_5xy0 s x y = CpuRs.op_5xy0 s x y := rfl

theorem main_op_6xnn_eq (s : Cpu) (x nn : Nat) : MainRs.op_6xnn s x nn = CpuRs.op_6xnn s x nn := rfl

theorem main_op_7xnn_eq (s : Cpu) (x nn : Nat) : MainRs.op_7xnn s x nn = CpuRs.op_7xnn s x nn := rfl

theorem main_op_8xy0_eq (s : Cpu) (x y : Nat) : MainRs.op_8xy0 s x y = CpuRs.op_8xy0 s x y := rfl

theorem main_op_8xy1_eq (s : Cpu) (x y : Nat) : MainRs.op_8xy1 s x y = CpuRs.op_8xy1 s x y := rfl

theorem main_op_8xy2_eq (s : Cpu) (x y : Nat) : MainRs.op_8xy2 s x y = CpuRs.op_8xy2 s x y := rfl

theorem main_op_8xy3_eq (s : Cpu) (x y : Nat) : MainRs.op_8xy3 s x y = CpuRs.op_8xy3 s x y := rfl

theorem main_op_8xy4_eq (s : Cpu) (x y : Nat) : MainRs.op_8xy4 s x y = CpuRs.op_8xy4 s x y := rfl

theorem main_op_8xy5_eq (s : Cpu) (x y : Nat) : MainRs.op_8xy5 s x y = CpuRs.op_8xy5 s x y := rfl

theorem main_op_8xy6_eq (s : Cpu) (x y : Nat) : MainRs.op_8xy6 s x y = CpuRs.op_8xy6 s x y := rfl

theorem main_op_8xy7_eq (s : Cpu) (x y : Nat) : MainRs.op_8xy7 s x y = CpuRs.op_8xy7 s x y := rfl

theorem main_op_8xye_eq (s : Cpu) (x y : Nat) : MainRs.op_8xye s x y = CpuRs.op_8xye s x y := rfl

theorem main_op_9xy0_eq (s : Cpu) (x y : Nat) : MainRs.op_9xy0 s x y = CpuRs.op_9xy0 s x y := rfl

theorem main_op_annn_eq (s : Cpu) (nnn : Nat) : MainRs.op_annn s nnn = CpuRs.op_annn s nnn := rfl

theorem main_op_fx15_eq (s : Cpu) (x : Nat) : MainRs.op_fx15 s x = CpuRs.op_fx15 s x := rfl

theorem main_op_fx33_eq (s : Cpu) (x : Nat) : MainRs.op_fx33 s x = CpuRs.op_fx33 s x := rfl

theorem main_storeRegs_eq (s : Cpu) : ∀ (k : Nat), MainRs.storeRegs s k = CpuRs.storeRegs s k := by
  intro k
  induction k with
  | zero => rfl
  | succ k ih => simp [MainRs.storeRegs, CpuRs.storeRegs, ih]

theorem main_loadRegs_eq (s : Cpu) : ∀ (k : Nat), MainRs.loadRegs s k = CpuRs.loadRegs s k := by
  intro k
  induction k with
  | zero => rfl
  | succ k ih => simp [MainRs.loadRegs, CpuRs.loadRegs, ih]

theorem main_op_fx55_eq (s : Cpu) (x : Nat) : MainRs.op_fx55 s x = CpuRs.op_fx55 s x := by
  simp [MainRs.op_fx55, CpuRs.op_fx55, main_storeRegs_eq]

theorem main_op_fx65_eq (s : Cpu) (x : Nat) : MainRs.op_fx65 s x = CpuRs.op_fx65 s x := by
  simp [MainRs.op_fx65, CpuRs.op_fx65, main_loadRegs_eq]

theorem main_drawBits_eq (x rowY byte : Nat) (s : Cpu) :
    ∀ (k : Nat), MainRs.drawBits x rowY byte s k = CpuRs.drawBits x rowY byte s k := by
  intro k
  induction k with
  | zero => rfl
  | succ k ih => simp [MainRs.drawBits, CpuRs.drawBits, ih]

theorem main_drawRows_eq (x y : Nat) (s : Cpu) :
    ∀ (m : Nat), MainRs.drawRows x y s m = CpuRs.drawRows x y s m := by
  intro m
  induction m with
  | zero => rfl
  | succ m ih => simp [MainRs.drawRows, CpuRs.drawRows, ih, main_drawBits_eq]

theorem main_op_dxyn_eq (s : Cpu) (x y n : Nat) : MainRs.op_dxyn s x y n = CpuRs.op_dxyn s x y n := by
  simp [MainRs.op_dxyn, CpuRs.op_dxyn, main_drawRows_eq]


/-- An instruction word matching no arm of the `main.rs` decode table makes
`MainRs.execute_opcode` reach the print-and-hang fallthrough. -/
theorem main_exec_unaccepted (s : Cpu) (w : Nat) (h : MainRs.accepts w = false) :
    MainRs.execute_opcode s w = .error (.hang w, s) := by
  simp only [MainRs.accepts, Bool.or_eq_false_iff, decide_eq_false_iff_not] at h
  obtain ⟨⟨⟨⟨⟨⟨⟨⟨⟨⟨⟨⟨⟨⟨⟨⟨⟨⟨⟨⟨⟨⟨⟨⟨h1, h2⟩, h3⟩, h4⟩, h5⟩, h6⟩, h7⟩, h8⟩, h9⟩, h10⟩, h11⟩, h12⟩, h13⟩, h14⟩, h15⟩, h16⟩, h17⟩, h18⟩, h19⟩, h20⟩, h21⟩, h22⟩, h23⟩, h24⟩, h25⟩ := h
  simp only [MainRs.execute_opcode]
  rw [if_neg h1, if_neg h2, if_neg h3, if_neg h4, if_neg h5, if_neg h6, if_neg h7, if_neg h8, if_neg h9, if_neg h10, if_neg h11, if_neg h12, if_neg h13, if_neg h14, if_neg h15, if_neg h16, if_neg h17, if_neg h18, if_neg h19, if_neg h20, if_neg h21, if_neg h22, if_neg h23, if_neg h24, if_neg h25]


/-- The decode tables agree except that `main.rs` omits `Bnnn`. -/
theorem main_accepts_eq :
    ∀ w, MainRs.accepts w = (CpuRs.accepts w && !(decide ((w &&& 0xF000) >>> 12 = 0xB))) := by
  intro w
  by_cases h : (w &&& 0xF000) >>> 12 = 0xB
  · simp [MainRs.accepts, CpuRs.accepts, h]
  · simp [MainRs.accepts, CpuRs.accepts, h]


/-- Every instruction word accepted by the `main.rs` decode table executes
identically in both interpreters. -/
theorem main_exec_agree :
    ∀ (s : Cpu) (w : Nat), MainRs.accepts w = true →
      MainRs.execute_opcode s w = CpuRs.execute_opcode s w := by
  intro s w hacc
  simp only [MainRs.accepts, Bool.or_eq_true, decide_eq_true_eq] at hacc
  rcases hacc with ((((((((((((((((((((((((h | h) | h) | h) | h) | h) | h) | h) | h) | h) | h) | h) | h) | h) | h) | h) | h) | h) | h) | h) | h) | h) | h) | h) | h) <;>
    simp [MainRs.execute_opcode, CpuRs.execute_opcode, h,
      main_op_00e0_eq, main_op_00ee_eq, main_op_1nnn_eq, main_op_2nnn_eq, main_op_3xnn_eq, main_op_4xnn_eq, main_op_5xy0_eq, main_op_6xnn_eq, main_op_7xnn_eq, main_op_8xy0_eq, main_op_8xy1_eq, main_op_8xy2_eq, main_op_8xy3_eq, main_op_8xy4_eq, main_op_8xy5_eq, main_op_8xy6_eq, main_op_8xy7_eq, main_op_8xye_eq, main_op_9xy0_eq, main_op_annn_eq, main_op_fx15_eq, main_op_fx33_eq, main_op_fx55_eq, main_op_fx65_eq, main_op_dxyn_eq]

/-- Claim C10 (amended): the interpreter duplicated inside `main.rs` and
the one in `cpu.rs` have decode tables that agree on every instruction
word except the `Bnnn` family, which `cpu.rs` decodes (`PC = V0 + nnn`)
and `main.rs` omits entirely; every handler present in both has identical
semantics, so on every word accepted by `main.rs` the successor states are
equal; on a word accepted by neither, `cpu.rs` aborts through its explicit
panic carrying the opcode while `main.rs` prints and hangs. -/
theorem C10_decode_equiv_except_bnnn :
    (∀ w, MainRs.accepts w = (CpuRs.accepts w && !(decide ((w &&& 0xF000) >>> 12 = 0xB)))) ∧
    (∀ (s : Cpu) (w : Nat), MainRs.accepts w = true →
      MainRs.execute_opcode s w = CpuRs.execute_opcode s w) ∧
    (∀ (s : Cpu) (w : Nat), CpuRs.accepts w = false →
      MainRs.execute_opcode s w = .error (.hang w, s) ∧
      CpuRs.execute_opcode s w = .error (.unexpectedOpcode w, s)) := by
  refine ⟨main_accepts_eq, main_exec_agree, ?_⟩
  intro s w h
  constructor
  · refine main_exec_unaccepted s w ?_
    rw [main_accepts_eq, h]
    rfl
  · exact cpu_exec_unaccepted s w h

/-- Witness for C10: the two interpreters agree on the concrete accepted
word `0x1234` (a call), and both reject `0xE000` with their respective
fallthrough behaviors. -/
theorem C10_decode_equiv_except_bnnn_w :
    MainRs.execute_opcode zeroCpu 0x1234 = CpuRs.execute_opcode zeroCpu 0x1234 ∧
    MainRs.execute_opcode zeroCpu 0xE000 = .error (.hang 0xE000, zeroCpu) ∧
    CpuRs.execute_opcode zeroCpu 0xE000 = .error (.unexpectedOpcode 0xE000, zeroCpu) :=
  ⟨C10_decode_equiv_except_bnnn.2.1 zeroCpu 0x1234 (by decide),
   (C10_decode_equiv_except_bnnn.2.2 zeroCpu 0xE000 (by decide)).1,
   (C10_decode_equiv_except_bnnn.2.2 zeroCpu 0xE000 (by decide)).2⟩
